import Mathlib

/-
Verification of the lucid-to-ics scraper against its design specification.

The development shallowly embeds the JavaScript sources:
  - src/scraper/scrape.js            (class LucidScraper, login helpers)
  - src/scraper/extraction-strategies (extraction pipeline)
  - src/config/constants.js          (configuration data)
  - the refactored LucidScraper (performLogin / run / scrapeBookings)

JavaScript strings are modelled as Lean String values; the JS operations
includes / trim / toLowerCase / startsWith are re-implemented over the
character lists so that every definition evaluates inside the kernel.
-/

set_option maxHeartbeats 1000000
set_option maxRecDepth 16000

/-- JS String.prototype.startsWith at the character-list level:
the first list is the candidate text, the second the candidate head segment. -/
def charsLe : List Char → List Char → Bool
  | [], _ => true
  | _ :: _, [] => false
  | a :: as, b :: bs => a == b && charsLe as bs

/-- Occurrence of `needle` as a contiguous run inside `hay`
(JS String.prototype.includes at the character-list level). -/
def charsSub (needle hay : List Char) : Bool :=
  match hay with
  | [] => needle.isEmpty
  | _ :: t => charsLe needle hay || charsSub needle t

/-- JS `hay.includes(needle)`. -/
def jsIncludes (hay needle : String) : Bool :=
  charsSub needle.data hay.data

/-- JS `s.startsWith(p)`. -/
def jsStartsWith (s p : String) : Bool :=
  charsLe p.data s.data

/-- Whitespace characters recognised by JS String.prototype.trim
(restricted to the ASCII ones that occur in the data this program reads). -/
def jsIsWs (c : Char) : Bool :=
  c == ' ' || c == '\t' || c == '\n' || c == '\r'

/-- JS `s.trim()`. -/
def jsTrim (s : String) : String :=
  String.mk (((s.data.dropWhile jsIsWs).reverse.dropWhile jsIsWs).reverse)

/-- ASCII lower-casing of one character, as JS toLowerCase acts on the
ASCII-only marker vocabulary this program compares against. -/
def jsLowerChar (c : Char) : Char :=
  if 65 ≤ c.toNat && c.toNat ≤ 90 then Char.ofNat (c.toNat + 32) else c

/-- JS `s.toLowerCase()`. -/
def jsToLower (s : String) : String :=
  String.mk (s.data.map jsLowerChar)

/-- A page as the login checks observe it: the current location href and
the rendered `document.body.innerText`. -/
structure PageView where
  currentUrl : String
  bodyText : String

/-- Shallow embedding of `verifyLoginStatus` from src/scraper/login-helpers
(lines 876-917 of the concatenated scrape.js): lower-cases the body text,
computes the sign-in and booking-content flags, and returns true on either
of the two acceptance branches. -/
def verifyLoginStatus (pv : PageView) : Bool :=
  let bodyText := jsToLower pv.bodyText
  let hasSignIn := jsIncludes bodyText "sign in" || jsIncludes bodyText "log in"
  let hasBookingContent := jsIncludes bodyText "booking" ||
                           jsIncludes bodyText "reservation" ||
                           jsIncludes bodyText "account"
  -- first branch: on an /account page with booking content and no sign-in prompts
  if jsIncludes pv.currentUrl "/account" && hasBookingContent && !hasSignIn then true
  -- alternative branch: booking content with no sign-in prompts
  else if hasBookingContent && !hasSignIn then true
  else false

/-- Shallow embedding of `LucidScraper.isLoggedIn` from src/scraper/scrape.js
(lines 92-140): requires the bookings path, rejects login prompts, and then
demands one of the specific booking-content markers. -/
def isLoggedIn (pv : PageView) : Bool :=
  let pageText := jsToLower pv.bodyText
  if !(jsIncludes pv.currentUrl "/account/bookings") then false
  else if jsIncludes pageText "sign in" || jsIncludes pageText "login" ||
          jsIncludes pageText "enter your email" then false
  else if jsIncludes pageText "my bookings" || jsIncludes pageText "upcoming" ||
          jsIncludes pageText "past bookings" || jsIncludes pageText "reservation details" then true
  else false

/-- Modelled from the spec (section 4.1 step CheckingSession): the claimed
Authenticated-detection predicate, written from the words of the claim for
comparison with the code: (a) stayed on the protected path, (b) at least one
genuine positive marker, (c) none of the negative markers
"sign in", "log in", "enter your email". -/
def claimAuthenticated (pv : PageView) : Bool :=
  let t := jsToLower pv.bodyText
  jsIncludes pv.currentUrl "/account/bookings" &&
  (jsIncludes t "my bookings" || jsIncludes t "upcoming" ||
   jsIncludes t "past bookings" || jsIncludes t "reservation details") &&
  !(jsIncludes t "sign in" || jsIncludes t "log in" || jsIncludes t "enter your email")

/-- A marketing page: off the protected path and containing the word
booking only in marketing copy. -/
def marketingPage : PageView :=
  { currentUrl := "https://lucidprivateoffices.com/tour"
    bodyText := "Easy booking for your team" }

/-- A protected page showing real booking content next to a log in prompt. -/
def mixedPage : PageView :=
  { currentUrl := "https://my.lucidprivateoffices.com/account/bookings"
    bodyText := "My Bookings. Session expiring, please log in again soon." }

/-- C2, counterexample: the Authenticated-detection code is not the claimed
predicate. `verifyLoginStatus` accepts a marketing page that is off the
protected path and merely mentions the word booking, and `isLoggedIn`
accepts a protected page that contains the negative marker "log in"
(its code tests for the string "login" instead); the claimed predicate
rejects both pages. -/
theorem verifyLoginStatus_differs_from_claim :
    verifyLoginStatus marketingPage = true ∧
    claimAuthenticated marketingPage = false ∧
    isLoggedIn mixedPage = true ∧
    claimAuthenticated mixedPage = false := by
  decide

/-- C2, amended: exact characterisation of both login predicates.
`verifyLoginStatus` is true iff the lower-cased body text contains one of
booking / reservation / account and contains neither "sign in" nor
"log in"; the /account URL branch is subsumed and no URL condition is
required. `isLoggedIn` is true iff the URL contains /account/bookings,
the text contains none of "sign in", "login", "enter your email", and
contains one of the four specific booking markers. -/
theorem loginPredicates_characterisation (pv : PageView) :
    (verifyLoginStatus pv = true ↔
      ((jsIncludes (jsToLower pv.bodyText) "booking" = true ∨
        jsIncludes (jsToLower pv.bodyText) "reservation" = true ∨
        jsIncludes (jsToLower pv.bodyText) "account" = true) ∧
       ¬(jsIncludes (jsToLower pv.bodyText) "sign in" = true ∨
         jsIncludes (jsToLower pv.bodyText) "log in" = true))) ∧
    (isLoggedIn pv = true ↔
      (jsIncludes pv.currentUrl "/account/bookings" = true ∧
       ¬(jsIncludes (jsToLower pv.bodyText) "sign in" = true ∨
         jsIncludes (jsToLower pv.bodyText) "login" = true ∨
         jsIncludes (jsToLower pv.bodyText) "enter your email" = true) ∧
       (jsIncludes (jsToLower pv.bodyText) "my bookings" = true ∨
        jsIncludes (jsToLower pv.bodyText) "upcoming" = true ∨
        jsIncludes (jsToLower pv.bodyText) "past bookings" = true ∨
        jsIncludes (jsToLower pv.bodyText) "reservation details" = true))) := by
  constructor
  · unfold verifyLoginStatus
    cases h1 : jsIncludes (jsToLower pv.bodyText) "booking" <;>
    cases h2 : jsIncludes (jsToLower pv.bodyText) "reservation" <;>
    cases h3 : jsIncludes (jsToLower pv.bodyText) "account" <;>
    cases h4 : jsIncludes (jsToLower pv.bodyText) "sign in" <;>
    cases h5 : jsIncludes (jsToLower pv.bodyText) "log in" <;>
    cases h6 : jsIncludes pv.currentUrl "/account" <;>
    simp_all
  · unfold isLoggedIn
    cases h1 : jsIncludes pv.currentUrl "/account/bookings" <;>
    cases h2 : jsIncludes (jsToLower pv.bodyText) "sign in" <;>
    cases h3 : jsIncludes (jsToLower pv.bodyText) "login" <;>
    cases h4 : jsIncludes (jsToLower pv.bodyText) "enter your email" <;>
    cases h5 : jsIncludes (jsToLower pv.bodyText) "my bookings" <;>
    cases h6 : jsIncludes (jsToLower pv.bodyText) "upcoming" <;>
    cases h7 : jsIncludes (jsToLower pv.bodyText) "past bookings" <;>
    cases h8 : jsIncludes (jsToLower pv.bodyText) "reservation details" <;>
    simp_all

/-
DOM model for the extraction pipeline.  A node is an element (tag, class
attribute, id attribute, children), a text node, or a comment node; the
child list is a separate inductive so that all traversals are structural.
-/

mutual
inductive Node where
  | elem (tag className idAttr : String) (children : NodeList)
  | text (s : String)
  | comment (s : String)
inductive NodeList where
  | nil
  | cons (n : Node) (l : NodeList)
end

mutual
/-- Serialised markup of one node (outerHTML).  Class and id attributes are
rendered when present, scripts and comments render with their delimiters. -/
def renderN : Node → String
  | .text s => s
  | .comment s => "<!--" ++ s ++ "-->"
  | .elem tag c i kids =>
      "<" ++ tag ++ (if c == "" then "" else " class=" ++ c) ++
      (if i == "" then "" else " id=" ++ i) ++ ">" ++
      renderL kids ++ "</" ++ tag ++ ">"
/-- Serialised markup of a node list (innerHTML of its parent). -/
def renderL : NodeList → String
  | .nil => ""
  | .cons n l => renderN n ++ renderL l
end

/-- JS `el.innerHTML` (empty for non-elements, which the strategies never query). -/
def innerHTML : Node → String
  | .elem _ _ _ kids => renderL kids
  | _ => ""

mutual
/-- DOM textContent of one node. -/
def textContentN : Node → String
  | .text s => s
  | .comment s => s
  | .elem _ _ _ kids => textContentL kids
/-- Concatenated text of descendants of an element; comment data is not
part of an element textContent. -/
def textContentL : NodeList → String
  | .nil => ""
  | .cons (.comment _) l => textContentL l
  | .cons n l => textContentN n ++ textContentL l
end

/-- JS `el.children.length`: number of child nodes that are elements. -/
def childElemCount : NodeList → Nat
  | .nil => 0
  | .cons (.elem _ _ _ _) l => 1 + childElemCount l
  | .cons _ l => childElemCount l

mutual
/-- Elements of a tree in document (pre-)order, as `querySelectorAll` lists
them starting from the document root. -/
def elemsN : Node → List Node
  | .elem t c i kids => .elem t c i kids :: elemsL kids
  | _ => []
def elemsL : NodeList → List Node
  | .nil => []
  | .cons n l => elemsN n ++ elemsL l
end

/-- The CSS selector shapes used by the configuration lists of
src/config/constants.js. -/
inductive Sel where
  | classSub (s : String)
  | idSub (s : String)
  | classTok (s : String)
  | idEq (s : String)
  | tagEq (s : String)

/-- Splitting of a class attribute value on spaces, skipping empty runs
(the class list the `.name` selectors consult).  The accumulator holds the
characters of the token being read, in reverse. -/
def classTokensChars : List Char → List Char → List String
  | [], cur => if cur.isEmpty then [] else [String.mk cur.reverse]
  | c :: rest, cur =>
      if c == ' ' then
        if cur.isEmpty then classTokensChars rest []
        else String.mk cur.reverse :: classTokensChars rest []
      else classTokensChars rest (c :: cur)

/-- Class-attribute token list (for `.name` selectors). -/
def classTokens (c : String) : List String :=
  classTokensChars c.data []

/-- Whether one element node matches one selector.  Attribute substring
selectors cannot match an element with an absent (empty) attribute since
the configured patterns are non-empty. -/
def matchesSel (sel : Sel) : Node → Bool
  | .elem tag c i _ =>
      match sel with
      | .classSub s => jsIncludes c s
      | .idSub s => jsIncludes i s
      | .classTok s => (classTokens c).contains s
      | .idEq s => i == s
      | .tagEq s => tag == s
  | _ => false

/-- BOOKING_SEARCH_TERMS from src/config/constants.js. -/
def BOOKING_SEARCH_TERMS : List String :=
  ["my bookings", "bookings", "reservations", "my reservations", "upcoming", "past bookings"]

/-- BOOKING_SELECTORS from src/config/constants.js, each with its source text. -/
def BOOKING_SELECTORS : List (Sel × String) :=
  [(.classSub "booking", "[class*=booking]"),
   (.classSub "reservation", "[class*=reservation]"),
   (.classSub "appointment", "[class*=appointment]"),
   (.classSub "event", "[class*=event]"),
   (.idSub "booking", "[id*=booking]"),
   (.idSub "reservation", "[id*=reservation]"),
   (.classTok "bookings", ".bookings"),
   (.classTok "reservations", ".reservations"),
   (.idEq "bookings", "#bookings"),
   (.idEq "reservations", "#reservations")]

/-- MAIN_CONTENT_SELECTORS from src/config/constants.js. -/
def MAIN_CONTENT_SELECTORS : List (Sel × String) :=
  [(.tagEq "main", "main"),
   (.classTok "main", ".main"),
   (.idEq "main", "#main"),
   (.classTok "content", ".content"),
   (.idEq "content", "#content"),
   (.classTok "container", ".container")]

/-- THRESHOLDS.MIN_BOOKING_SECTION_SIZE. -/
def MIN_BOOKING_SECTION_SIZE : Nat := 100

/-- THRESHOLDS.MIN_MAIN_CONTENT_SIZE. -/
def MIN_MAIN_CONTENT_SIZE : Nat := 1000

/-- A strategy match: the chosen container element and the method tag the
strategy reports.  The source carries the serialised markup
(container.outerHTML); the embedding keeps the container node and
serialises at the use sites, which is the same data. -/
structure Picked where
  container : Node
  method : String

/-- The filter of strategy 1 (findByTextContent): truthy textContent whose
lower-casing contains the term, and at least one child element. -/
def matchesTerm (term : String) : Node → Bool
  | .elem t c i kids =>
      let tc := textContentN (.elem t c i kids)
      (!(tc == "")) && jsIncludes (jsToLower tc) term && decide (childElemCount kids > 0)
  | _ => false

/-- The reduce step of strategy 1: keep the element with the strictly
larger innerHTML, the earlier one on ties. -/
def largestByInnerHTML (e : Node) (es : List Node) : Node :=
  es.foldl (fun largest current =>
    if (innerHTML current).length > (innerHTML largest).length then current else largest) e

/-- Strategy 1 loop over the ranked term list (findByTextContent of
src/scraper/extraction-strategies): first term with any matching element
wins, the largest matching container is selected. -/
def textSearchGo (doc : Node) : List String → Option Picked
  | [] => none
  | term :: rest =>
      match (elemsN doc).filter (matchesTerm term) with
      | [] => textSearchGo doc rest
      | e :: es => some { container := largestByInnerHTML e es, method := "text-search-" ++ term }

/-- Strategy 1: findByTextContent. -/
def findByTextContent (doc : Node) : Option Picked :=
  textSearchGo doc BOOKING_SEARCH_TERMS

/-- The forEach accumulation of strategy 2: best element and its strictly
maximal innerHTML length, starting from (null, 0). -/
def bestBySize (els : List Node) : Option Node × Nat :=
  els.foldl (fun acc el =>
    let size := (innerHTML el).length
    if size > acc.2 then (some el, size) else acc) (none, 0)

/-- Strategy 2 loop over BOOKING_SELECTORS (findBySelectors): among the
elements matched by one selector pick the largest by innerHTML and accept
it only above MIN_BOOKING_SECTION_SIZE, otherwise continue with the next
selector. -/
def selectorGo (doc : Node) : List (Sel × String) → Option Picked
  | [] => none
  | (sel, name) :: rest =>
      match (elemsN doc).filter (matchesSel sel) with
      | [] => selectorGo doc rest
      | e :: es =>
          match bestBySize (e :: es) with
          | (some best, maxSize) =>
              if maxSize > MIN_BOOKING_SECTION_SIZE then
                some { container := best, method := "selector-" ++ name }
              else selectorGo doc rest
          | (none, _) => selectorGo doc rest

/-- Strategy 2: findBySelectors. -/
def findBySelectors (doc : Node) : Option Picked :=
  selectorGo doc BOOKING_SELECTORS

/-- Strategy 3 loop over MAIN_CONTENT_SELECTORS (findMainContent):
querySelector takes the first element in document order; accept it only
above MIN_MAIN_CONTENT_SIZE, otherwise continue. -/
def mainGo (doc : Node) : List (Sel × String) → Option Picked
  | [] => none
  | (sel, name) :: rest =>
      match (elemsN doc).find? (matchesSel sel) with
      | some el =>
          if (innerHTML el).length > MIN_MAIN_CONTENT_SIZE then
            some { container := el, method := "main-content-" ++ name }
          else mainGo doc rest
      | none => mainGo doc rest

/-- Strategy 3: findMainContent. -/
def findMainContent (doc : Node) : Option Picked :=
  mainGo doc MAIN_CONTENT_SELECTORS

mutual
/-- Removal of every element with the given tag, at every depth, as
`tempDiv.querySelectorAll(tag).forEach(el => el.remove())` acts on the
parsed fragment: none erases the node, some keeps it with cleaned children. -/
def stripTagN (t : String) : Node → Option Node
  | .elem tag c i kids => if tag == t then none else some (.elem tag c i (stripTagL t kids))
  | n => some n
/-- stripTagN over a child list. -/
def stripTagL (t : String) : NodeList → NodeList
  | .nil => .nil
  | .cons n l =>
      match stripTagN t n with
      | none => stripTagL t l
      | some n2 => .cons n2 (stripTagL t l)
end

mutual
/-- Removal of every comment node at every depth, as the TreeWalker pass of
cleanHtml removes the collected comment nodes. -/
def stripCommentsN : Node → Option Node
  | .comment _ => none
  | .elem tag c i kids => some (.elem tag c i (stripCommentsL kids))
  | n => some n
/-- stripCommentsN over a child list. -/
def stripCommentsL : NodeList → NodeList
  | .nil => .nil
  | .cons n l =>
      match stripCommentsN n with
      | none => stripCommentsL l
      | some n2 => .cons n2 (stripCommentsL l)
end

mutual
/-- Whether some element with the given tag occurs at any depth. -/
def hasTagN (t : String) : Node → Bool
  | .elem tag _ _ kids => tag == t || hasTagL t kids
  | _ => false
/-- hasTagN over a child list. -/
def hasTagL (t : String) : NodeList → Bool
  | .nil => false
  | .cons n l => hasTagN t n || hasTagL t l
end

mutual
/-- Whether some comment node occurs at any depth. -/
def hasCommentN : Node → Bool
  | .comment _ => true
  | .elem _ _ _ kids => hasCommentL kids
  | _ => false
/-- hasCommentN over a child list. -/
def hasCommentL : NodeList → Bool
  | .nil => false
  | .cons n l => hasCommentN n || hasCommentL l
end

/-- The fragment produced by cleanHtml of src/scraper/extraction-strategies
before re-serialisation: the selected container is loaded into a temporary
div (tempDiv.innerHTML := fragment markup) whose parse is the container
node itself, then script elements, style elements and comment nodes are
removed, in that order. -/
def cleanNodes (n : Node) : NodeList :=
  stripCommentsL (stripTagL "style" (stripTagL "script" (.cons n .nil)))

/-- cleanHtml: the cleaned markup returned to the pipeline
(tempDiv.innerHTML after the three removal passes). -/
def cleanHtml (n : Node) : String :=
  renderL (cleanNodes n)

/-- One extraction run on one page: the document plus, for each of the four
page.evaluate calls the pipeline can make (the three strategies and the
cleanup), whether that call raises an evaluation error instead of running
against the document (the page navigating away mid-evaluation). -/
structure Page where
  doc : Node
  fail1 : Bool
  fail2 : Bool
  fail3 : Bool
  failClean : Bool

/-- The result record extractBookingsSection returns on a match. -/
structure ExtractionResult where
  html : String
  method : String
  originalSize : Nat
  cleanedSize : Nat
deriving DecidableEq

/-- The tail of a successful strategy in extractBookingsSection: run
cleanHtml on the chosen markup and build the result record.  A cleanup
evaluation error propagates to the surrounding try. -/
def finishPick (pg : Page) (pk : Picked) : Except Unit (Option ExtractionResult) :=
  if pg.failClean then .error () else
    .ok (some { html := cleanHtml pk.container
                method := pk.method
                originalSize := (renderN pk.container).length
                cleanedSize := (cleanHtml pk.container).length })

/-- The strategy loop of extractBookingsSection inside its try block: the
three strategies in their fixed order, stopping at the first match; an
evaluation error anywhere escapes the loop. -/
def runPipeline (pg : Page) : Except Unit (Option ExtractionResult) :=
  if pg.fail1 then .error () else
  match findByTextContent pg.doc with
  | some pk => finishPick pg pk
  | none =>
    if pg.fail2 then .error () else
    match findBySelectors pg.doc with
    | some pk => finishPick pg pk
    | none =>
      if pg.fail3 then .error () else
      match findMainContent pg.doc with
      | some pk => finishPick pg pk
      | none => .ok none

/-- extractBookingsSection of src/scraper/extraction-strategies: the
strategy loop wrapped in try/catch, any caught error yielding null. -/
def extractBookingsSection (pg : Page) : Option ExtractionResult :=
  match runPipeline pg with
  | .ok r => r
  | .error _ => none

/-- The extraction tail of LucidScraper.scrapeBookings (refactored scraper,
src/unnamed/part_002 lines 186-204): the optimised section when
extractBookingsSection found one, otherwise the raw full page markup
(this.page.content()). -/
def scrapeBookings (pg : Page) : String :=
  match extractBookingsSection pg with
  | some section2 => section2.html
  | none => renderN pg.doc

mutual
theorem stripTagN_no_tag (t : String) : ∀ n : Node, ∀ n2, stripTagN t n = some n2 → hasTagN t n2 = false
  | .elem tag c i kids, n2, h => by
      by_cases ht : tag == t
      · simp [stripTagN, ht] at h
      · simp [stripTagN, ht] at h
        subst h
        simp [hasTagN, ht, stripTagL_no_tag t kids]
  | .text s, n2, h => by simp [stripTagN] at h; subst h; simp [hasTagN]
  | .comment s, n2, h => by simp [stripTagN] at h; subst h; simp [hasTagN]
theorem stripTagL_no_tag (t : String) : ∀ l : NodeList, hasTagL t (stripTagL t l) = false
  | .nil => by simp [stripTagL, hasTagL]
  | .cons n l => by
      cases hn : stripTagN t n with
      | none => simp [stripTagL, hn, stripTagL_no_tag t l]
      | some n2 =>
          simp [stripTagL, hn, hasTagL, stripTagL_no_tag t l,
            stripTagN_no_tag t n n2 hn]
end

mutual
theorem hasTagN_of_stripTagN (s t : String) :
    ∀ n : Node, ∀ n2, stripTagN t n = some n2 → hasTagN s n2 = true → hasTagN s n = true
  | .elem tag c i kids, n2, h, h2 => by
      by_cases ht : tag == t
      · simp [stripTagN, ht] at h
      · simp [stripTagN, ht] at h
        subst h
        simp [hasTagN] at h2 ⊢
        rcases h2 with h2 | h2
        · exact Or.inl h2
        · exact Or.inr (hasTagL_of_stripTagL s t kids h2)
  | .text s2, n2, h, h2 => by simp [stripTagN] at h; subst h; exact h2
  | .comment s2, n2, h, h2 => by simp [stripTagN] at h; subst h; exact h2
theorem hasTagL_of_stripTagL (s t : String) :
    ∀ l : NodeList, hasTagL s (stripTagL t l) = true → hasTagL s l = true
  | .nil, h => h
  | .cons n l, h => by
      cases hn : stripTagN t n with
      | none =>
          rw [stripTagL, hn] at h
          simp [hasTagL, hasTagL_of_stripTagL s t l h]
      | some n2 =>
          rw [stripTagL, hn] at h
          simp [hasTagL] at h ⊢
          rcases h with h | h
          · exact Or.inl (hasTagN_of_stripTagN s t n n2 hn h)
          · exact Or.inr (hasTagL_of_stripTagL s t l h)
end

mutual
theorem stripCommentsN_clean : ∀ n : Node, ∀ n2, stripCommentsN n = some n2 → hasCommentN n2 = false
  | .elem tag c i kids, n2, h => by
      simp [stripCommentsN] at h
      subst h
      simp [hasCommentN, stripCommentsL_clean kids]
  | .text s, n2, h => by simp [stripCommentsN] at h; subst h; simp [hasCommentN]
  | .comment s, n2, h => by simp [stripCommentsN] at h
theorem stripCommentsL_clean : ∀ l : NodeList, hasCommentL (stripCommentsL l) = false
  | .nil => by simp [stripCommentsL, hasCommentL]
  | .cons n l => by
      cases hn : stripCommentsN n with
      | none => simp [stripCommentsL, hn, stripCommentsL_clean l]
      | some n2 =>
          simp [stripCommentsL, hn, hasCommentL, stripCommentsL_clean l,
            stripCommentsN_clean n n2 hn]
end

mutual
theorem hasTagN_of_stripCommentsN (s : String) :
    ∀ n : Node, ∀ n2, stripCommentsN n = some n2 → hasTagN s n2 = true → hasTagN s n = true
  | .elem tag c i kids, n2, h, h2 => by
      simp [stripCommentsN] at h
      subst h
      simp [hasTagN] at h2 ⊢
      rcases h2 with h2 | h2
      · exact Or.inl h2
      · exact Or.inr (hasTagL_of_stripCommentsL s kids h2)
  | .text s2, n2, h, h2 => by simp [stripCommentsN] at h; subst h; exact h2
  | .comment s2, n2, h, h2 => by simp [stripCommentsN] at h
theorem hasTagL_of_stripCommentsL (s : String) :
    ∀ l : NodeList, hasTagL s (stripCommentsL l) = true → hasTagL s l = true
  | .nil, h => h
  | .cons n l, h => by
      cases hn : stripCommentsN n with
      | none =>
          rw [stripCommentsL, hn] at h
          simp [hasTagL, hasTagL_of_stripCommentsL s l h]
      | some n2 =>
          rw [stripCommentsL, hn] at h
          simp [hasTagL] at h ⊢
          rcases h with h | h
          · exact Or.inl (hasTagN_of_stripCommentsN s n n2 hn h)
          · exact Or.inr (hasTagL_of_stripCommentsL s l h)
end

/-- The three cleanup passes leave no script element, no style element and
no comment node in the cleaned fragment. -/
theorem cleanNodes_clean (n : Node) :
    hasTagL "script" (cleanNodes n) = false ∧
    hasTagL "style" (cleanNodes n) = false ∧
    hasCommentL (cleanNodes n) = false := by
  refine ⟨?_, ?_, ?_⟩
  · by_contra h
    rw [Bool.not_eq_false] at h
    have h2 := hasTagL_of_stripCommentsL "script" _ h
    have h3 := hasTagL_of_stripTagL "script" "style" _ h2
    rw [stripTagL_no_tag "script" _] at h3
    exact Bool.false_ne_true h3
  · by_contra h
    rw [Bool.not_eq_false] at h
    have h2 := hasTagL_of_stripCommentsL "style" _ h
    rw [stripTagL_no_tag "style" _] at h2
    exact Bool.false_ne_true h2
  · exact stripCommentsL_clean _

/-- A prefix check succeeds on an appended string. -/
theorem charsLe_self_append : ∀ l m : List Char, charsLe l (l ++ m) = true
  | [], _ => rfl
  | a :: as, m => by simp [charsLe, charsLe_self_append as m]

/-- jsStartsWith holds for the left part of a concatenation. -/
theorem jsStartsWith_append (a b : String) : jsStartsWith (a ++ b) a = true := by
  have h : (a ++ b).data = a.data ++ b.data := by
    cases a; cases b; rfl
  simp [jsStartsWith, h, charsLe_self_append]

/-- If some term of the list has a matching element, the text strategy loop
returns a match whose method tag names one of the terms. -/
theorem textSearchGo_some (doc : Node) (term : String) :
    ∀ terms : List String, term ∈ terms →
    (elemsN doc).filter (matchesTerm term) ≠ [] →
    ∃ pk, textSearchGo doc terms = some pk ∧
      ∃ t2, t2 ∈ terms ∧ pk.method = "text-search-" ++ t2
  | [], hmem, _ => absurd hmem (List.not_mem_nil term)
  | t :: rest, hmem, hne => by
      cases hf : (elemsN doc).filter (matchesTerm t) with
      | nil =>
          rcases List.mem_cons.mp hmem with heq | hmem2
          · subst heq; exact absurd hf hne
          · rcases textSearchGo_some doc term rest hmem2 hne with ⟨pk, hpk, t2, ht2, hm⟩
            exact ⟨pk, by simp [textSearchGo, hf, hpk], t2, List.mem_cons_of_mem t ht2, hm⟩
      | cons e es =>
          exact ⟨{ container := largestByInnerHTML e es, method := "text-search-" ++ t },
            by simp [textSearchGo, hf], t, List.mem_cons_self t rest, rfl⟩

/-- C4: the pipeline evaluates its strategies in the fixed order and
short-circuits on the first match.  When the document has an element whose
lower-cased text contains a configured search phrase and that has at least
one child element, strategy 1 matches, the winning method is a
text-search one, and the extraction result is exactly the cleaned
strategy-1 container regardless of the state of the later strategy
evaluations (strategies 2 and 3 are never consulted, so their evaluation
outcomes b2 and b3 cannot change the run).  The pipeline is a pure
function of the page, so identical runs give identical winners. -/
theorem extraction_short_circuits (doc : Node) (term : String)
    (hterm : term ∈ BOOKING_SEARCH_TERMS)
    (hmatch : (elemsN doc).any (matchesTerm term) = true) (b2 b3 : Bool) :
    ∃ pk, findByTextContent doc = some pk ∧
      jsStartsWith pk.method "text-search-" = true ∧
      extractBookingsSection { doc := doc, fail1 := false, fail2 := b2, fail3 := b3, failClean := false } =
        some { html := cleanHtml pk.container
               method := pk.method
               originalSize := (renderN pk.container).length
               cleanedSize := (cleanHtml pk.container).length } := by
  have hne : (elemsN doc).filter (matchesTerm term) ≠ [] := by
    rcases List.any_eq_true.mp hmatch with ⟨x, hx, hpx⟩
    intro hnil
    have hxf : x ∈ (elemsN doc).filter (matchesTerm term) := List.mem_filter.mpr ⟨hx, hpx⟩
    rw [hnil] at hxf
    exact List.not_mem_nil x hxf
  rcases textSearchGo_some doc term BOOKING_SEARCH_TERMS hterm hne with ⟨pk, hpk, t2, _, hm⟩
  refine ⟨pk, hpk, ?_, ?_⟩
  · rw [hm]; exact jsStartsWith_append "text-search-" t2
  · simp [extractBookingsSection, runPipeline, findByTextContent] at hpk ⊢
    simp [hpk, finishPick]

/-- A document whose body shows a genuine bookings section: the section
element contains the phrase and has child elements. -/
def bookingsDoc : Node :=
  .elem "html" "" "" (.cons
    (.elem "body" "" "" (.cons
      (.elem "section" "" "" (.cons
        (.elem "h1" "" "" (.cons (.text "My Bookings") .nil))
        (.cons (.elem "ul" "" "" (.cons (.elem "li" "" "" (.cons (.text "Room A at 10:00") .nil)) .nil))
        .nil)))
      .nil))
    .nil)

/-- C4, witness: on a concrete bookings document the first phrase matches
and the run is settled by strategy 1 even when both later strategy
evaluations would fail. -/
theorem extraction_short_circuits_witness :
    ∃ pk, findByTextContent bookingsDoc = some pk ∧
      jsStartsWith pk.method "text-search-" = true ∧
      extractBookingsSection { doc := bookingsDoc, fail1 := false, fail2 := true, fail3 := true, failClean := false } =
        some { html := cleanHtml pk.container
               method := pk.method
               originalSize := (renderN pk.container).length
               cleanedSize := (cleanHtml pk.container).length } :=
  extraction_short_circuits bookingsDoc "my bookings" (by decide) (by decide) true true

/-- Every result record the pipeline returns was built by finishPick, so
its markup is the cleaned serialisation of some container node. -/
theorem runPipeline_some_html (pg : Page) (r : ExtractionResult)
    (h : runPipeline pg = .ok (some r)) :
    ∃ n2, r.html = renderL (cleanNodes n2) := by
  unfold runPipeline at h
  split at h
  · exact absurd h (by simp)
  · split at h
    · rename_i pk _
      unfold finishPick at h
      split at h
      · exact absurd h (by simp)
      · simp at h
        exact ⟨pk.container, by rw [← h]; rfl⟩
    · split at h
      · exact absurd h (by simp)
      · split at h
        · rename_i pk _
          unfold finishPick at h
          split at h
          · exact absurd h (by simp)
          · simp at h
            exact ⟨pk.container, by rw [← h]; rfl⟩
        · split at h
          · exact absurd h (by simp)
          · split at h
            · rename_i pk _
              unfold finishPick at h
              split at h
              · exact absurd h (by simp)
              · simp at h
                exact ⟨pk.container, by rw [← h]; rfl⟩
            · exact absurd h (by simp)

/-- C5, amended: the cleanup (scripts, then styles, then comment nodes)
is applied to every fragment selected by one of the three strategies, and
the cleaned fragment contains no script element, no style element and no
comment node; but the whole-page ultimate fallback bypasses the cleanup:
when no strategy matches, scrapeBookings returns the raw page markup. -/
theorem cleanup_only_on_strategy_fragments (pg : Page) :
    (∀ r, extractBookingsSection pg = some r →
       ∃ n2, r.html = renderL (cleanNodes n2) ∧
         hasTagL "script" (cleanNodes n2) = false ∧
         hasTagL "style" (cleanNodes n2) = false ∧
         hasCommentL (cleanNodes n2) = false) ∧
    (extractBookingsSection pg = none → scrapeBookings pg = renderN pg.doc) := by
  constructor
  · intro r h
    unfold extractBookingsSection at h
    cases hp : runPipeline pg with
    | error e => rw [hp] at h; exact absurd h (by simp)
    | ok v =>
        rw [hp] at h
        simp at h
        subst h
        rcases runPipeline_some_html pg r hp with ⟨n2, hn2⟩
        rcases cleanNodes_clean n2 with ⟨h1, h2, h3⟩
        exact ⟨n2, hn2, h1, h2, h3⟩
  · intro h
    unfold scrapeBookings
    rw [h]

/-- A page whose document matches no strategy but whose markup holds a
script element, a style element and a comment. -/
def plainDoc : Node :=
  .elem "html" "" "" (.cons
    (.elem "head" "" "" (.cons
      (.elem "script" "" "" (.cons (.text "var x=1;") .nil))
      (.cons (.elem "style" "" "" (.cons (.text "p .red") .nil)) .nil)))
    (.cons
      (.elem "body" "" "" (.cons
        (.comment " layout note ")
        (.cons (.elem "p" "" "" (.cons (.text "welcome home") .nil)) .nil)))
      .nil))

/-- The extraction run on the plain document, with no evaluation errors. -/
def plainPage : Page :=
  { doc := plainDoc, fail1 := false, fail2 := false, fail3 := false, failClean := false }

/-- C5, counterexample: on a page where no strategy matches, the whole-page
ultimate fallback is returned by scrapeBookings without any cleanup, so the
returned content still contains the script element and the comment. -/
theorem fallback_page_not_cleaned :
    extractBookingsSection plainPage = none ∧
    jsIncludes (scrapeBookings plainPage) "<script>" = true ∧
    jsIncludes (scrapeBookings plainPage) "<!--" = true := by
  decide

/-- A fragment holding a script, a style and a comment, used to exhibit
the cleanup behaviour on strategy-selected fragments. -/
def dirtyFragment : Node :=
  .elem "div" "" "" (.cons
    (.elem "script" "" "" (.cons (.text "var y=2;") .nil))
    (.cons (.elem "style" "" "" (.cons (.text ".b .c") .nil))
    (.cons (.comment " old markup ")
    (.cons (.elem "span" "" "" (.cons (.text "kept") .nil)) .nil))))

/-- C5, witness: a strategy-selected fragment is cleaned of scripts,
styles and comments, and a no-match run returns the raw page. -/
theorem cleanup_only_on_strategy_fragments_witness :
    (∃ n2, (renderL (cleanNodes dirtyFragment)) = renderL (cleanNodes n2) ∧
       hasTagL "script" (cleanNodes n2) = false ∧
       hasTagL "style" (cleanNodes n2) = false ∧
       hasCommentL (cleanNodes n2) = false) ∧
    scrapeBookings plainPage = renderN plainDoc := by
  constructor
  · rcases cleanNodes_clean dirtyFragment with ⟨h1, h2, h3⟩
    exact ⟨dirtyFragment, rfl, h1, h2, h3⟩
  · exact (cleanup_only_on_strategy_fragments plainPage).2 (by decide)

/-- Filler text with no booking vocabulary, long enough for the
main-content threshold. -/
def fillerText : String := String.mk (List.replicate 1010 'x')

/-- A document where only strategy 3 can match: a main landmark whose
innerHTML exceeds MIN_MAIN_CONTENT_SIZE, no booking phrases and no
booking selectors anywhere. -/
def mainOnlyDoc : Node :=
  .elem "html" "" "" (.cons
    (.elem "main" "" "" (.cons (.text fillerText) .nil))
    .nil)

/-- The run on mainOnlyDoc where the first strategy evaluation raises. -/
def mainOnlyPageErr : Page :=
  { doc := mainOnlyDoc, fail1 := true, fail2 := false, fail3 := false, failClean := false }

/-- The run on mainOnlyDoc with no evaluation errors. -/
def mainOnlyPage : Page :=
  { doc := mainOnlyDoc, fail1 := false, fail2 := false, fail3 := false, failClean := false }

/-- C6, counterexample: an evaluation error in strategy 1 is not treated as
a mere no-match.  On a document that strategy 3 would extract, the same run
with a strategy-1 evaluation error returns null instead of the strategy-3
result: the remaining strategies are never evaluated. -/
theorem strategy_error_skips_remaining_strategies :
    extractBookingsSection mainOnlyPageErr = none ∧
    (extractBookingsSection mainOnlyPage).isSome = true := by
  decide

/-- C6, amended: an evaluation error raised by any strategy is caught by
the try/catch around the whole strategy loop, so extractBookingsSection
returns null at once (the caller then falls back to the full page rather
than failing), and the strategies after the erring one are not evaluated:
an error in strategy 1 yields null whatever the later strategies would do,
an error in strategy 2 yields null once strategy 1 found no match, and an
error in strategy 3 yields null once strategies 1 and 2 found no match. -/
theorem strategy_error_aborts_pipeline (doc : Node) (b2 b3 bc : Bool) :
    extractBookingsSection { doc := doc, fail1 := true, fail2 := b2, fail3 := b3, failClean := bc } = none ∧
    (findByTextContent doc = none →
      extractBookingsSection { doc := doc, fail1 := false, fail2 := true, fail3 := b3, failClean := bc } = none) ∧
    (findByTextContent doc = none → findBySelectors doc = none →
      extractBookingsSection { doc := doc, fail1 := false, fail2 := false, fail3 := true, failClean := bc } = none) := by
  refine ⟨?_, ?_, ?_⟩
  · simp [extractBookingsSection, runPipeline]
  · intro h1
    simp [extractBookingsSection, runPipeline, h1]
  · intro h1 h2
    simp [extractBookingsSection, runPipeline, h1, h2]

/-- C6, amended witness: the abort behaviour at the concrete main-only
document, for an error in each of the three strategy positions. -/
theorem strategy_error_aborts_pipeline_witness :
    extractBookingsSection { doc := mainOnlyDoc, fail1 := true, fail2 := false, fail3 := false, failClean := false } = none ∧
    (extractBookingsSection { doc := mainOnlyDoc, fail1 := false, fail2 := true, fail3 := false, failClean := false } = none) ∧
    (extractBookingsSection { doc := mainOnlyDoc, fail1 := false, fail2 := false, fail3 := true, failClean := false } = none) := by
  have h := strategy_error_aborts_pipeline mainOnlyDoc false false false
  have h1 : (findByTextContent mainOnlyDoc).isNone = true := by decide
  have h2 : (findBySelectors mainOnlyDoc).isNone = true := by decide
  exact ⟨h.1, h.2.1 (Option.isNone_iff_eq_none.mp h1),
    h.2.2 (Option.isNone_iff_eq_none.mp h1) (Option.isNone_iff_eq_none.mp h2)⟩

/-
Authentication controller: effect-trace model of performLogin
(refactored LucidScraper, src/unnamed/part_002 lines 93-141) and of the
tail of LucidScraper.login (src/scraper/scrape.js lines 460-483).
-/

/-- URLS.LOGIN from src/config/constants.js. -/
def URLS_LOGIN : String := "https://my.lucidprivateoffices.com/sign-in"

/-- The externally visible effects of one login attempt, in program order. -/
inductive Effect where
  | navigate (url : String)
  | readChannel
  | deleteToken
  | saveCookies
deriving DecidableEq

/-- The environment one performLogin call runs against: whether the
navigation to the login page succeeds, whether LUCID_EMAIL is set, whether
findEmailInput finds a field, whether submitEmailForm finds an enabled
submit button, what waitForMagicLink yields (none models the timeout
throw), and what processMagicLink yields (error models a navigation
throw, ok b its boolean verdict). -/
structure LoginEnv where
  navLoginOk : Bool
  emailSet : Bool
  emailInputFound : Bool
  submitOk : Bool
  magicLink : Option String
  processResult : Except Unit Bool

/-- Shallow embedding of LucidScraper.performLogin: navigate to the login
page, check LUCID_EMAIL, find the email input, submit the form, wait for
the magic link, process it; on a false verdict throw the
authentication-failed error; on success clean up the magic-link file and
then save the cookies, in that order. -/
def performLogin (env : LoginEnv) : Except String Bool × List Effect :=
  if !env.navLoginOk then
    (.error "Failed to navigate", [.navigate URLS_LOGIN])
  else if !env.emailSet then
    (.error "LUCID_EMAIL environment variable is required", [.navigate URLS_LOGIN])
  else if !env.emailInputFound then
    (.error "Could not find email input field on login page", [.navigate URLS_LOGIN])
  else if !env.submitOk then
    (.error "Could not find enabled submit button", [.navigate URLS_LOGIN])
  else
    match env.magicLink with
    | none =>
        (.error "Magic link URL not provided within timeout period",
         [.navigate URLS_LOGIN, .readChannel])
    | some url =>
        match env.processResult with
        | .error _ =>
            (.error "Error processing magic link",
             [.navigate URLS_LOGIN, .readChannel, .navigate url])
        | .ok false =>
            (.error "Magic link authentication failed",
             [.navigate URLS_LOGIN, .readChannel, .navigate url])
        | .ok true =>
            (.ok true,
             [.navigate URLS_LOGIN, .readChannel, .navigate url, .deleteToken, .saveCookies])

/-- The success tail of the legacy LucidScraper.login (scrape.js lines
460-483): when the login looks successful, the used login URL file is
removed first and the cookies are saved afterwards; otherwise the flow
throws without touching the file. -/
def loginFinalize (loginLikelySuccessful : Bool) : Except String Unit × List Effect :=
  if loginLikelySuccessful then
    (.ok (), [.deleteToken, .saveCookies])
  else
    (.error "Login may have failed - please check the magic link URL is correct and not expired", [])

/-- How one effect acts on the magic-link channel (the login_url.txt slot):
only the deletion changes it. -/
def applyChannel : Effect → Option String → Option String
  | .deleteToken, _ => none
  | _, ch => ch

/-- The channel contents after a trace of effects. -/
def applyEffects (effs : List Effect) (ch : Option String) : Option String :=
  effs.foldl (fun c e => applyChannel e c) ch

deriving instance DecidableEq for Except

/-- The all-success login environment. -/
def happyEnv : LoginEnv :=
  { navLoginOk := true, emailSet := true, emailInputFound := true, submitOk := true
    magicLink := some "https://my.lucidprivateoffices.com/auth/tok", processResult := .ok true }

/-- C1, counterexample: on a fully successful login run the controller
deletes the consumed token from the magic-link channel strictly before it
persists the cookie set, and the last effect of the run is the cookie
save, not the deletion — the claimed persist-before-delete ordering fails. -/
theorem token_deleted_before_cookie_save :
    (performLogin happyEnv).1 = Except.ok true ∧
    (performLogin happyEnv).2 =
      [.navigate URLS_LOGIN, .readChannel,
       .navigate "https://my.lucidprivateoffices.com/auth/tok", .deleteToken, .saveCookies] ∧
    (performLogin happyEnv).2.indexOf .deleteToken < (performLogin happyEnv).2.indexOf .saveCookies ∧
    (performLogin happyEnv).2.getLast? = some .saveCookies := by
  decide

/-- C1, amended: on every successful login run the deletion of the
consumed token happens immediately before the cookie persistence; both
occur only after the authentication verdict is positive, the run ends with
the pair deleteToken, saveCookies, and the deletion is not performed at
any earlier point of the trace.  The legacy login tail orders the two
effects the same way. -/
theorem delete_then_save_on_success (env : LoginEnv)
    (h : (performLogin env).1 = Except.ok true) :
    (∃ url, env.magicLink = some url ∧
      (performLogin env).2 =
        [.navigate URLS_LOGIN, .readChannel, .navigate url, .deleteToken, .saveCookies]) ∧
    loginFinalize true = (.ok (), [.deleteToken, .saveCookies]) := by
  refine ⟨?_, rfl⟩
  rcases env with ⟨nav, es, ef, so, ml, pr⟩
  cases nav <;> cases es <;> cases ef <;> cases so <;>
    simp_all [performLogin]
  cases ml with
  | none => simp_all [performLogin]
  | some url =>
      cases pr with
      | error e => simp_all [performLogin]
      | ok b =>
          cases b with
          | false => simp_all [performLogin]
          | true => exact ⟨url, rfl, by simp [performLogin]⟩

/-- C1, amended witness: the successful trace at the all-success
environment. -/
theorem delete_then_save_on_success_witness :
    (∃ url, happyEnv.magicLink = some url ∧
      (performLogin happyEnv).2 =
        [.navigate URLS_LOGIN, .readChannel, .navigate url, .deleteToken, .saveCookies]) ∧
    loginFinalize true = (.ok (), [.deleteToken, .saveCookies]) :=
  delete_then_save_on_success happyEnv (by decide)

/-- C3: when the post-magic-link authentication verdict is false, the run
fails with the magic-link-authentication-failed error, the deletion effect
never happens, and the magic-link channel keeps whatever token it held. -/
theorem failed_auth_keeps_token (env : LoginEnv)
    (h1 : env.navLoginOk = true) (h2 : env.emailSet = true)
    (h3 : env.emailInputFound = true) (h4 : env.submitOk = true)
    (h5 : env.magicLink.isSome = true) (h6 : env.processResult = Except.ok false) :
    (performLogin env).1 = Except.error "Magic link authentication failed" ∧
    Effect.deleteToken ∉ (performLogin env).2 ∧
    ∀ ch, applyEffects (performLogin env).2 ch = ch := by
  rcases env with ⟨nav, es, ef, so, ml, pr⟩
  simp_all
  subst h1 h2 h3 h4 h6
  cases ml with
  | none => simp at h5
  | some url =>
      refine ⟨by simp [performLogin], ?_, ?_⟩
      · simp [performLogin]
      · intro ch
        simp [performLogin, applyEffects, applyChannel]

/-- C3, witness: the failing-verdict environment keeps the concrete token
in the channel. -/
theorem failed_auth_keeps_token_witness :
    (performLogin { happyEnv with processResult := .ok false }).1 =
      Except.error "Magic link authentication failed" ∧
    Effect.deleteToken ∉ (performLogin { happyEnv with processResult := .ok false }).2 ∧
    applyEffects (performLogin { happyEnv with processResult := .ok false }).2
      (some "https://my.lucidprivateoffices.com/auth/tok") =
      some "https://my.lucidprivateoffices.com/auth/tok" := by
  have h := failed_auth_keeps_token { happyEnv with processResult := .ok false }
    (by decide) (by decide) (by decide) (by decide) (by decide) rfl
  exact ⟨h.1, h.2.1, h.2.2 _⟩

/-
Magic-link waits.  The channel is the login_url.txt slot, observed once per
poll; obs k is its content at the k-th poll (none = file absent).  The
while-loop guard of waitForMagicLink compares elapsed time with
TIMEOUTS.MAGIC_LINK_WAIT, sleeping MAGIC_LINK_POLL_INTERVAL between polls,
so the loop makes MAGIC_LINK_WAIT / MAGIC_LINK_POLL_INTERVAL polls before
throwing; the legacy waitForLoginUrl of scrape.js has no guard at all.
-/

/-- TIMEOUTS.MAGIC_LINK_WAIT from src/config/constants.js (ten minutes). -/
def MAGIC_LINK_WAIT : Nat := 600000

/-- The two-second sleep between polls of both wait loops. -/
def MAGIC_LINK_POLL_INTERVAL : Nat := 2000

/-- checkMagicLinkUrl of src/scraper/login-helpers (lines 772-787): read
the file; when its content is truthy and its trim starts with http, return
the trimmed URL, otherwise report no valid URL. -/
def checkMagicLinkUrl (content : Option String) : Option String :=
  match content with
  | some url =>
      if (!(url == "")) && jsStartsWith (jsTrim url) "http" then some (jsTrim url) else none
  | none => none

/-- The poll loop of waitForMagicLink: k is the index of the current poll,
the fuel is the number of polls the time guard still admits. -/
def waitForMagicLinkAux (obs : Nat → Option String) (k : Nat) : Nat → Except String String
  | 0 => .error "Magic link URL not provided within timeout period"
  | fuel + 1 =>
      match checkMagicLinkUrl (obs k) with
      | some url => .ok url
      | none => waitForMagicLinkAux obs (k + 1) fuel

/-- waitForMagicLink of src/scraper/login-helpers (lines 792-808). -/
def waitForMagicLink (obs : Nat → Option String) : Except String String :=
  waitForMagicLinkAux obs 0 (MAGIC_LINK_WAIT / MAGIC_LINK_POLL_INTERVAL)

/-- One poll of the legacy LucidScraper.waitForLoginUrl (scrape.js lines
148-163): read the file, trim, accept a non-empty trimmed value starting
with http. -/
def checkLoginUrlFile (content : Option String) : Option String :=
  match content with
  | some raw =>
      let url := jsTrim raw
      if decide (url.length > 0) && jsStartsWith url "http" then some url else none
  | none => none

/-- The unbounded while-true loop of waitForLoginUrl observed for a given
number of polls: some url when the loop returned within that many polls,
none when it is still polling afterwards. -/
def waitForLoginUrlSteps (obs : Nat → Option String) (k : Nat) : Nat → Option String
  | 0 => none
  | fuel + 1 =>
      match checkLoginUrlFile (obs k) with
      | some url => some url
      | none => waitForLoginUrlSteps obs (k + 1) fuel

/-- The channel to which no token is ever written. -/
def emptyChannel : Nat → Option String := fun _ => none

/-- C7, counterexample: not every magic-link wait terminates within the
configured ceiling.  After the full ten-minute window (300 polls at two
seconds) has elapsed with no token ever written, the legacy
waitForLoginUrl loop of scrape.js is still polling — it has neither
returned nor failed with the timeout error — whereas the refactored
waitForMagicLink has already thrown its timeout. -/
theorem waitForLoginUrl_never_times_out :
    waitForLoginUrlSteps emptyChannel 0 (MAGIC_LINK_WAIT / MAGIC_LINK_POLL_INTERVAL + 1) = none ∧
    waitForMagicLink emptyChannel =
      Except.error "Magic link URL not provided within timeout period" := by
  decide

/-- The legacy loop never exits on its own while the channel stays empty. -/
theorem waitForLoginUrlSteps_empty (k : Nat) :
    ∀ fuel, waitForLoginUrlSteps emptyChannel k fuel = none
  | 0 => rfl
  | fuel + 1 => by
      simp [waitForLoginUrlSteps, checkLoginUrlFile, emptyChannel]
      exact waitForLoginUrlSteps_empty (k + 1) fuel

/-- C7, amended: the refactored waitForMagicLink always terminates within
the ceiling — when the poll window elapses with no token ever written it
fails with the timeout error, and its loop only reads the channel — but
the legacy LucidScraper.waitForLoginUrl has no ceiling: on the
never-written channel it is still polling after any number of polls, so
the wait can block forever. -/
theorem magic_link_wait_ceiling (fuel : Nat) :
    waitForMagicLink emptyChannel =
      Except.error "Magic link URL not provided within timeout period" ∧
    waitForLoginUrlSteps emptyChannel 0 fuel = none := by
  exact ⟨by decide, waitForLoginUrlSteps_empty 0 fuel⟩

/-- Every token a poll of the refactored loop accepts comes from a file
read at that poll whose trim is the returned value. -/
theorem waitForMagicLinkAux_ok (obs : Nat → Option String) (r : String) :
    ∀ fuel k, waitForMagicLinkAux obs k fuel = .ok r →
      ∃ k2 raw, obs k2 = some raw ∧ r = jsTrim raw ∧ jsStartsWith r "http" = true
  | 0, k, h => by simp [waitForMagicLinkAux] at h
  | fuel + 1, k, h => by
      rw [waitForMagicLinkAux] at h
      cases hc : checkMagicLinkUrl (obs k) with
      | none =>
          rw [hc] at h
          exact waitForMagicLinkAux_ok obs r fuel (k + 1) h
      | some url =>
          rw [hc] at h
          simp at h
          subst h
          cases hobs : obs k with
          | none => rw [hobs] at hc; simp [checkMagicLinkUrl] at hc
          | some raw =>
              rw [hobs] at hc
              simp only [checkMagicLinkUrl] at hc
              split at hc
              · rename_i hg
                simp at hc
                subst hc
                exact ⟨k, raw, hobs, rfl, (Bool.and_eq_true _ _ |>.mp hg).2⟩
              · exact absurd hc (by simp)

/-- Every token a poll of the legacy loop accepts comes from a file read
at that poll whose trim is the returned value, and it is non-empty. -/
theorem waitForLoginUrlSteps_ok (obs : Nat → Option String) (r : String) :
    ∀ fuel k, waitForLoginUrlSteps obs k fuel = some r →
      ∃ k2 raw, obs k2 = some raw ∧ r = jsTrim raw ∧
        jsStartsWith r "http" = true ∧ r.length > 0
  | 0, k, h => by simp [waitForLoginUrlSteps] at h
  | fuel + 1, k, h => by
      rw [waitForLoginUrlSteps] at h
      cases hc : checkLoginUrlFile (obs k) with
      | none =>
          rw [hc] at h
          exact waitForLoginUrlSteps_ok obs r fuel (k + 1) h
      | some url =>
          rw [hc] at h
          simp at h
          subst h
          cases hobs : obs k with
          | none => rw [hobs] at hc; simp [checkLoginUrlFile] at hc
          | some raw =>
              rw [hobs] at hc
              simp only [checkLoginUrlFile] at hc
              split at hc
              · rename_i hg
                simp at hc
                subst hc
                rcases Bool.and_eq_true _ _ |>.mp hg with ⟨hl, hs⟩
                exact ⟨k, raw, hobs, rfl, hs, of_decide_eq_true hl⟩
              · exact absurd hc (by simp)

/-- An empty string does not start with http. -/
theorem empty_not_http : jsStartsWith "" "http" = false := by decide

/-- C10: every value either magic-link wait loop hands to the controller
is the trimmed file content, starts with http, and is non-empty; raw
untrimmed content is never returned and an empty, whitespace-only or
non-http file is treated as absent (the loop keeps polling past it). -/
theorem magic_link_value_valid (obs : Nat → Option String) (r : String) (fuel : Nat)
    (h : waitForMagicLink obs = .ok r ∨ waitForLoginUrlSteps obs 0 fuel = some r) :
    ∃ k raw, obs k = some raw ∧ r = jsTrim raw ∧
      jsStartsWith r "http" = true ∧ ¬(r = "") := by
  have hr : ∃ k raw, obs k = some raw ∧ r = jsTrim raw ∧ jsStartsWith r "http" = true := by
    rcases h with h | h
    · rcases waitForMagicLinkAux_ok obs r _ _ h with ⟨k, raw, h1, h2, h3⟩
      exact ⟨k, raw, h1, h2, h3⟩
    · rcases waitForLoginUrlSteps_ok obs r fuel 0 h with ⟨k, raw, h1, h2, h3, _⟩
      exact ⟨k, raw, h1, h2, h3⟩
  rcases hr with ⟨k, raw, h1, h2, h3⟩
  refine ⟨k, raw, h1, h2, h3, ?_⟩
  intro he
  rw [he] at h3
  rw [empty_not_http] at h3
  exact Bool.false_ne_true h3

/-- A channel whose slot holds a padded magic-link URL from the first poll. -/
def paddedChannel : Nat → Option String :=
  fun _ => some "  https://my.lucidprivateoffices.com/auth/tok \n"

/-- C10, witness: on a padded file the refactored wait returns the
trimmed URL, which starts with http and is non-empty. -/
theorem magic_link_value_valid_witness :
    ∃ k raw, paddedChannel k = some raw ∧
      "https://my.lucidprivateoffices.com/auth/tok" = jsTrim raw ∧
      jsStartsWith "https://my.lucidprivateoffices.com/auth/tok" "http" = true ∧
      ¬("https://my.lucidprivateoffices.com/auth/tok" = "") :=
  magic_link_value_valid paddedChannel "https://my.lucidprivateoffices.com/auth/tok" 0
    (Or.inl (by decide))

/-
SessionStore: the cookies.json slot written by saveCookies and read by
loadCookies of the refactored LucidScraper (src/unnamed/part_002 lines
41-66).  The file state distinguishes an absent file, a present but
unparseable file, and a file parsing to a JSON value; writeJson stores the
JSON encoding of the cookie list and readJson recovers it, with any load
error (parse failure or a setCookie throw on data of the wrong shape)
caught and treated as having no previous session.
-/

/-- A JSON value, as fs-extra writeJson / readJson move them. -/
inductive Json where
  | null
  | bool (b : Bool)
  | num (n : Int)
  | str (s : String)
  | arr (elems : List Json)
  | obj (fields : List (String × Json))

/-- One browser cookie record as page.cookies() reports it (the fields the
SessionStore boundary requires, with the optional expiry). -/
structure Cookie where
  name : String
  value : String
  domain : String
  path : String
  expires : Option Int
deriving DecidableEq

/-- JSON encoding of one cookie. -/
def cookieToJson (c : Cookie) : Json :=
  .obj ([("name", .str c.name), ("value", .str c.value),
         ("domain", .str c.domain), ("path", .str c.path)] ++
    (match c.expires with
     | some e => [("expires", Json.num e)]
     | none => []))

/-- Recovery of one cookie from a JSON value; any other shape makes
page.setCookie throw, which loadCookies catches. -/
def cookieFromJson (j : Json) : Option Cookie :=
  match j with
  | .obj fields =>
      match fields.lookup "name", fields.lookup "value",
            fields.lookup "domain", fields.lookup "path" with
      | some (.str n), some (.str v), some (.str d), some (.str p) =>
          some { name := n, value := v, domain := d, path := p
                 expires := match fields.lookup "expires" with
                            | some (.num e) => some e
                            | _ => none }
      | _, _, _, _ => none
  | _ => none

/-- JSON encoding of the cookie list, as writeJson stores it. -/
def cookiesToJson (cs : List Cookie) : Json :=
  .arr (cs.map cookieToJson)

/-- Element-wise recovery of the cookie list; one bad element fails the
whole load (the setCookie spread throws on it). -/
def cookiesFromJsonList : List Json → Option (List Cookie)
  | [] => some []
  | j :: js =>
      match cookieFromJson j, cookiesFromJsonList js with
      | some c, some cs => some (c :: cs)
      | _, _ => none

/-- Recovery of the cookie list from the parsed file. -/
def cookiesFromJson (j : Json) : Option (List Cookie) :=
  match j with
  | .arr elems => cookiesFromJsonList elems
  | _ => none

/-- The cookies.json slot: none = file absent; some none = file present
but not parseable as JSON; some (some j) = file parses to j. -/
def SessionFile : Type := Option (Option Json)

/-- saveCookies: overwrite the slot with the JSON encoding of the current
cookie set, whatever was there before. -/
def saveCookies (cs : List Cookie) (_ : SessionFile) : SessionFile :=
  some (some (cookiesToJson cs))

/-- loadCookies: no file or a caught load error gives no session;
otherwise the decoded cookie list. -/
def loadCookies (f : SessionFile) : Option (List Cookie) :=
  match f with
  | none => none
  | some none => none
  | some (some j) =>
      match cookiesFromJson j with
      | some cs => some cs
      | none => none

/-- One cookie survives the JSON round trip. -/
theorem cookie_roundtrip (c : Cookie) : cookieFromJson (cookieToJson c) = some c := by
  rcases c with ⟨n, v, d, p, e⟩
  cases e <;> rfl

/-- The cookie list survives the JSON round trip. -/
theorem cookies_roundtrip : ∀ cs : List Cookie, cookiesFromJson (cookiesToJson cs) = some cs
  | [] => rfl
  | c :: cs => by
      have ih := cookies_roundtrip cs
      simp only [cookiesToJson, cookiesFromJson, List.map] at ih ⊢
      simp [cookiesFromJsonList, cookie_roundtrip, ih]

/-- C8: a save followed by a load with no intervening write returns
exactly the saved session, and loading an absent, unparseable or
wrong-shaped cookies file returns no session instead of failing. -/
theorem session_store_roundtrip (cs : List Cookie) (f : SessionFile) :
    loadCookies (saveCookies cs f) = some cs ∧
    loadCookies none = none ∧
    loadCookies (some none) = none ∧
    loadCookies (some (some (Json.str "not a cookie array"))) = none := by
  refine ⟨?_, rfl, rfl, rfl⟩
  simp [loadCookies, saveCookies, cookies_roundtrip]

/-
Bookings persistence: the tail of LucidScraper.run (src/unnamed/part_002
lines 221-254) writes data/bookings.json only when the parsed list is
non-empty.
-/

/-- One parsed booking record, with the fields the LLM parser extracts. -/
structure Booking where
  title : String
  room : String
  date : String
  startTime : String
  endTime : String
  description : String
deriving DecidableEq

/-- The stored bookings file content. -/
structure BookingsData where
  bookings : List Booking
  lastUpdated : String
deriving DecidableEq

/-- The persistence step of LucidScraper.run: parseBookingsWithLLM yields
either no list (modelled none) or a list; the file is overwritten with the
list and a fresh timestamp only when the list is truthy and non-empty,
otherwise the run just warns and leaves the file as it was. -/
def runSaveBookings (parsed : Option (List Booking)) (now : String)
    (file : Option BookingsData) : Option BookingsData :=
  match parsed with
  | some bs =>
      if bs.length > 0 then some { bookings := bs, lastUpdated := now }
      else file
  | none => file

/-- C9: a run whose parse yields no bookings (a missing or empty list)
leaves the stored bookings file untouched — previous bookings and their
lastUpdated timestamp survive unchanged — and the file is overwritten
exactly when at least one booking was parsed. -/
theorem empty_parse_preserves_bookings_file (now : String) (file : Option BookingsData)
    (b : Booking) (bs : List Booking) :
    runSaveBookings none now file = file ∧
    runSaveBookings (some []) now file = file ∧
    runSaveBookings (some (b :: bs)) now file =
      some { bookings := b :: bs, lastUpdated := now } := by
  refine ⟨rfl, rfl, ?_⟩
  simp [runSaveBookings]
